import Mathlib

/-!
# Shallow embedding: Shor-notebook classical post-processing

This file embeds the classical part of the Shor's-algorithm notebook
(the cell with id `small-marijuana`, together with the base-sampling line)
and proves properties of the "Period-to-Factor Resolver" it implements.

The Python cell is:

```
base = int(random.random() * toFactor)
if not gcd(base, toFactor) == 1:
    print("Factor: \x7b\x7d".format(gcd(base, toFactor)))
else:
    ... quantum subroutine producing a measured integer y ...
    r = Fraction(y).limit_denominator(toFactor - 1).denominator
    if r % 2 != 0:
        r *= 2
    apowrhalf = pow(base, r >> 1, toFactor)
    f1 = gcd(apowrhalf + 1, toFactor)
    f2 = gcd(apowrhalf - 1, toFactor)
    if (not f1 * f2 == toFactor) and f1 * f2 > 1 and int(1.0 * toFactor / (f1 * f2)) * f1 * f2 == toFactor:
        f1, f2 = f1 * f2, int(toFactor / (f1 * f2))
    if f1 * f2 == toFactor and f1 > 1 and f2 > 1:
        print("Factors found : ...")
    else:
        print("Failed: Found \x7b\x7d and \x7b\x7d".format(f1, f2))
```

The quantum subroutine is an external collaborator: the measured outcome `y`
is taken as an input.  Fallible Python operations (operations that can raise)
are modelled with `Option`, returning `none` exactly where Python raises.
-/

namespace Shor

/-- The continued-fraction loop of CPython's `Fraction.limit_denominator`
(`fractions.py`): state `(p0, q0, p1, q1)` holds the last two convergents of
`n / d`; the loop breaks when the next convergent's denominator `q2` would
exceed `maxDen`.  Restricted to nonnegative fractions (`n d : ℕ`), the only
case the notebook reaches.  `none` models the `ZeroDivisionError` Python
would raise on `n // d` with `d = 0` (unreachable from `limit_denominator`'s
actual call sites, where `d` is a positive denominator). -/
def ldLoop (maxDen p0 q0 p1 q1 n d : ℕ) : Option (ℕ × ℕ × ℕ × ℕ) :=
  if h : d = 0 then none
  else
    let a := n / d
    let q2 := q0 + a * q1
    if maxDen < q2 then some (p0, q0, p1, q1)
    else ldLoop maxDen p1 q1 (p0 + a * p1) q2 d (n - a * d)
termination_by d
decreasing_by
  have hd : 0 < d := Nat.pos_of_ne_zero h
  have h1 := Nat.mod_add_div n d
  have h2 := Nat.mod_lt n hd
  have h3 : n / d * d = d * (n / d) := Nat.mul_comm _ _
  omega

/-- CPython's `Fraction.limit_denominator(max_denominator)`: the closest
fraction to `q` with denominator at most `maxDen`.  Returns `none` where
Python raises: `ValueError` when `max_denominator < 1` (and, through
`ldLoop`, the unreachable division-by-zero case).  Restricted to `q ≥ 0`
(numerator read as `q.num.toNat`), the only case the notebook reaches. -/
def limit_denominator (q : ℚ) (maxDen : ℕ) : Option ℚ :=
  if maxDen < 1 then none
  else if q.den ≤ maxDen then some q
  else
    match ldLoop maxDen 0 1 1 0 q.num.toNat q.den with
    | none => none
    | some (p0, q0, p1, q1) =>
      let k := (maxDen - q0) / q1
      let bound1 : ℚ := mkRat (p0 + k * p1 : ℕ) (q0 + k * q1)
      let bound2 : ℚ := mkRat p1 q1
      if |bound2 - q| ≤ |bound1 - q| then some bound2 else some bound1

/-- Python `pow(b, e, m)`: modular exponentiation.  `none` models the
`ValueError` Python raises when the modulus is zero. -/
def pyPow (b e m : ℕ) : Option ℕ :=
  if m = 0 then none else some (b ^ e % m)

/-- Python division of naturals followed by `int(...)` truncation (both the
`int(1.0 * toFactor / (f1 * f2))` and `int(toFactor / (f1 * f2))` forms in the
cell): floor division.  `none` models the `ZeroDivisionError` raised when
the divisor is zero. -/
def pyDivFloor (a b : ℕ) : Option ℕ :=
  if b = 0 then none else some (a / b)

/-- Line `r = Fraction(y).limit_denominator(toFactor - 1).denominator`: the
period candidate.  Note the source applies `limit_denominator` to the
integer `y` itself (`Fraction(y)` is `y / 1`), not to `y / 2^n`. -/
def periodCandidate (N y : ℕ) : Option ℕ :=
  (limit_denominator (y : ℚ) (N - 1)).map Rat.den

/-- Lines `if r % 2 != 0: r *= 2`: an odd candidate is doubled. -/
def adjustParity (r : ℕ) : ℕ :=
  if r % 2 ≠ 0 then r * 2 else r

/-- Lines `apowrhalf = pow(base, r >> 1, toFactor)`,
`f1 = gcd(apowrhalf + 1, toFactor)`, `f2 = gcd(apowrhalf - 1, toFactor)`.
Python's `math.gcd` on integers is the nonnegative gcd of absolute values,
i.e. `Int.gcd`. -/
def candidatePair (N a r : ℕ) : Option (ℕ × ℕ) :=
  (pyPow a (r >>> 1) N).map fun x =>
    (Int.gcd ((x : ℤ) + 1) N, Int.gcd ((x : ℤ) - 1) N)

/-- The composite-correction line:
`if (not f1 * f2 == toFactor) and f1 * f2 > 1 and int(1.0 * toFactor / (f1 * f2)) * f1 * f2 == toFactor:`
`    f1, f2 = f1 * f2, int(toFactor / (f1 * f2))`.
The `and`s short-circuit, so the division only happens once `f1 * f2 > 1`
is known. -/
def compositeCorrect (N f1 f2 : ℕ) : Option (ℕ × ℕ) :=
  if f1 * f2 = N then some (f1, f2)
  else if 1 < f1 * f2 then
    (pyDivFloor N (f1 * f2)).map fun q =>
      if q * f1 * f2 = N then (f1 * f2, q) else (f1, f2)
  else some (f1, f2)

/-- Result of the resolver: the "Factors found" print (success) or the
"Failed: Found f1 and f2" print (failure), each carrying the final pair. -/
inductive FactorResult where
  | success (f1 f2 : ℕ)
  | failure (f1 f2 : ℕ)
deriving DecidableEq

/-- The Period-to-Factor Resolver: the cell's lines from
`r = Fraction(y).limit_denominator(...)` through the success/failure print,
for target `N`, base `a` and measured outcome `y`. -/
def resolveFactors (N a y : ℕ) : Option FactorResult :=
  (periodCandidate N y).bind fun r =>
    (candidatePair N a (adjustParity r)).bind fun fs =>
      (compositeCorrect N fs.1 fs.2).map fun gs =>
        if gs.1 * gs.2 = N ∧ 1 < gs.1 ∧ 1 < gs.2 then
          FactorResult.success gs.1 gs.2
        else
          FactorResult.failure gs.1 gs.2

/-- Line `base = int(random.random() * toFactor)`: `u` is the sampler's
value in `[0, 1)`; `int(...)` truncates, which on a nonnegative value is the
floor. -/
def sampleBase (N : ℕ) (u : ℚ) : ℤ :=
  ⌊u * (N : ℚ)⌋

/-- Line `qubitCount = math.ceil(math.log2(toFactor))`: the number of
phase-estimation qubits, `n = ⌈log2 N⌉` (idealizing the float `log2`). -/
def qubitCount (N : ℕ) : ℕ :=
  Nat.clog 2 N

/-- What the whole cell reports: either the classical branch's
`print("Factor: gcd(base, toFactor)")` or the resolver's result. -/
inductive CellOutput where
  | classicalFactor (f : ℕ)
  | quantum (res : FactorResult)
deriving DecidableEq

/-- The whole cell after base sampling: the `gcd(base, toFactor) == 1`
precondition check, bypassing the resolver when it fails. -/
def shorCell (N base y : ℕ) : Option CellOutput :=
  if Nat.gcd base N ≠ 1 then some (.classicalFactor (Nat.gcd base N))
  else (resolveFactors N base y).map .quantum

/-- Specification-side period candidate, for comparison with
`periodCandidate`: the spec's step 1 approximates `y / 2 ^ n` (the fraction
`Fraction(y, 2 ** n)`, i.e. `mkRat y (2 ^ n)`) by continued fractions with
denominator bound `N - 1` and takes the denominator. -/
def specPeriodCandidate (N n y : ℕ) : Option ℕ :=
  (limit_denominator (mkRat y (2 ^ n)) (N - 1)).map Rat.den

/-! ## Helper lemmas -/

/-- For `N ≥ 2` the argument of `limit_denominator` is the integer `y`, a
fraction with denominator 1 ≤ N - 1, so the early-return branch fires and
the period candidate is always 1. -/
theorem periodCandidate_eq_one (N y : ℕ) (hN : 2 ≤ N) :
    periodCandidate N y = some 1 := by
  have h1 : ¬ ((N : ℕ) - 1 < 1) := by omega
  have h2 : (1 : ℕ) ≤ N - 1 := by omega
  simp [periodCandidate, limit_denominator, h1, h2, Rat.den_natCast]

/-- `pyDivFloor` succeeds whenever the divisor is nonzero. -/
theorem pyDivFloor_eq (a b : ℕ) (hb : b ≠ 0) : pyDivFloor a b = some (a / b) := by
  simp [pyDivFloor, hb]

/-- `pyPow` succeeds whenever the modulus is nonzero. -/
theorem candidatePair_eq (N a r : ℕ) (hN : N ≠ 0) :
    candidatePair N a r =
      some (Int.gcd (((a ^ (r >>> 1) % N : ℕ) : ℤ) + 1) N,
            Int.gcd (((a ^ (r >>> 1) % N : ℕ) : ℤ) - 1) N) := by
  simp [candidatePair, pyPow, hN]

/-- The composite-correction pass always yields a pair: the division is
guarded by `1 < f1 * f2`, which rules out the divisor 0. -/
theorem compositeCorrect_exists (N f1 f2 : ℕ) :
    ∃ p, compositeCorrect N f1 f2 = some p := by
  unfold compositeCorrect
  split
  · exact ⟨_, rfl⟩
  · split
    · rename_i hne hgt
      rw [pyDivFloor_eq N (f1 * f2) (by omega)]
      exact ⟨_, rfl⟩
    · exact ⟨_, rfl⟩

/-- For `N ≥ 2` the resolver always produces a result: every fallible step
succeeds. -/
theorem resolveFactors_total (N a y : ℕ) (hN : 2 ≤ N) :
    ∃ res, resolveFactors N a y = some res := by
  unfold resolveFactors
  rw [periodCandidate_eq_one N y hN, Option.some_bind,
    candidatePair_eq N a (adjustParity 1) (by omega), Option.some_bind]
  obtain ⟨p, hp⟩ := compositeCorrect_exists N _ _
  rw [hp]
  exact ⟨_, rfl⟩

/-! ## Claims -/

/-- Claim C1 (code bug): the spec's period candidate is the denominator of
the best rational approximation of `y / 2 ^ n` under denominator bound
`N - 1`, but the code truncates the integer `y` itself
(`Fraction(y)`, not `Fraction(y, 2 ** n)`).  At `N = 15`, `n = 4`, `y = 4`
the code produces `r = 1`, while the spec's quantity — the best
approximation of `4 / 16 = 1 / 4`, which is `1 / 4` itself since its
denominator 4 is within the bound 14 — has denominator 4. -/
theorem periodCandidate_uses_integer_y :
    periodCandidate 15 4 = some 1 ∧
    specPeriodCandidate 15 4 4 = some 4 ∧
    (mkRat 4 (2 ^ 4)).den = 4 := by
  decide

/-- Claim C2: for a fixed `N ≥ 2` and base `a`, the resolver's result is
the same for every measured outcome: the continued-fraction step applied to
the integer `y` always yields denominator 1 (doubled to 2 by the parity
adjustment), so the output does not depend on `y`. -/
theorem resolver_independent_of_measurement (N a y y' : ℕ) (hN : 2 ≤ N) :
    periodCandidate N y = some 1 ∧ adjustParity 1 = 2 ∧
    resolveFactors N a y = resolveFactors N a y' := by
  refine ⟨periodCandidate_eq_one N y hN, by decide, ?_⟩
  unfold resolveFactors
  rw [periodCandidate_eq_one N y hN, periodCandidate_eq_one N y' hN]

/-- Witness for claim C2 at `N = 15`, `a = 7`, `y = 4`, `y' = 9`. -/
theorem resolver_independent_of_measurement_witness :
    periodCandidate 15 4 = some 1 ∧ adjustParity 1 = 2 ∧
    resolveFactors 15 7 4 = resolveFactors 15 7 9 :=
  resolver_independent_of_measurement 15 7 4 9 (by decide)

/-- Claim C3: for every valid input triple the resolver terminates with a
result; no step raises (`none`) — in particular no division by zero and no
`limit_denominator`/`pow` error, since `N ≥ 2`. -/
theorem resolver_never_raises (N a y : ℕ) (hN : 2 ≤ N) (ha1 : 1 < a)
    (ha2 : a < N) (hco : Nat.gcd a N = 1) (hy : y < 2 ^ qubitCount N) :
    ∃ res, resolveFactors N a y = some res :=
  resolveFactors_total N a y hN

/-- Witness for claim C3 at `N = 15`, `a = 7`, `y = 4`. -/
theorem resolver_never_raises_witness :
    ∃ res, resolveFactors 15 7 4 = some res :=
  resolver_never_raises 15 7 4 (by decide) (by decide) (by decide) (by decide)
    (by simp [qubitCount, Nat.clog])

/-- Claim C4: the resolver declares success exactly when the
post-correction pair multiplies to `N` with both factors above 1; every
reported success is a nontrivial factorization, and every other outcome is
a failure report carrying a pair that is not one. -/
theorem success_iff_verified_pair (N a y : ℕ) (res : FactorResult)
    (h : resolveFactors N a y = some res) :
    (∃ g1 g2, res = FactorResult.success g1 g2 ∧
      g1 * g2 = N ∧ 1 < g1 ∧ 1 < g2) ∨
    (∃ g1 g2, res = FactorResult.failure g1 g2 ∧
      ¬ (g1 * g2 = N ∧ 1 < g1 ∧ 1 < g2)) := by
  unfold resolveFactors at h
  cases hpc : periodCandidate N y with
  | none => rw [hpc] at h; simp at h
  | some r =>
    rw [hpc, Option.some_bind] at h
    cases hcp : candidatePair N a (adjustParity r) with
    | none => rw [hcp] at h; simp at h
    | some fs =>
      rw [hcp, Option.some_bind] at h
      cases hcc : compositeCorrect N fs.1 fs.2 with
      | none => rw [hcc] at h; simp at h
      | some gs =>
        rw [hcc, Option.map_some'] at h
        by_cases hcond : gs.1 * gs.2 = N ∧ 1 < gs.1 ∧ 1 < gs.2
        · rw [if_pos hcond] at h
          exact Or.inl ⟨gs.1, gs.2, (Option.some_injective _ h).symm, hcond⟩
        · rw [if_neg hcond] at h
          exact Or.inr ⟨gs.1, gs.2, (Option.some_injective _ h).symm, hcond⟩

/-- Witness for claim C4 at `N = 15`, `a = 7`, `y = 4`,
`res = success 3 5`. -/
theorem success_iff_verified_pair_witness :
    (∃ g1 g2, FactorResult.success 3 5 = FactorResult.success g1 g2 ∧
      g1 * g2 = 15 ∧ 1 < g1 ∧ 1 < g2) ∨
    (∃ g1 g2, FactorResult.success 3 5 = FactorResult.failure g1 g2 ∧
      ¬ (g1 * g2 = 15 ∧ 1 < g1 ∧ 1 < g2)) :=
  success_iff_verified_pair 15 7 4 (FactorResult.success 3 5) (by decide)

/-- Claim C5: at `N = 15`, `a = 7`, `y = 4` (with `n = 4` phase-estimation
qubits) the resolver succeeds with the pair `(3, 5)`. -/
theorem known_factorization_15_7_4 :
    resolveFactors 15 7 4 = some (FactorResult.success 3 5) ∧
    Nat.gcd 7 15 = 1 ∧ qubitCount 15 = 4 ∧ 4 < 2 ^ 4 := by
  refine ⟨by decide, by decide, by simp [qubitCount, Nat.clog], by decide⟩

/-- Counterexample to claim C6: at `N = 15`, `a = 7` (co-prime, in range)
the degenerate measurement `y = 0` does NOT yield a failure result — the
resolver succeeds with `(3, 5)`, because `y = 0` gives `r = 1` (not the
spec's `r = 0`), doubled to 2, so `x = 7`, the gcd pair is `(1, 3)`, and
the composite-correction pass turns it into the valid pair `(3, 5)`. -/
theorem degenerate_y_can_succeed :
    Nat.gcd 7 15 = 1 ∧
    resolveFactors 15 7 0 = some (FactorResult.success 3 5) := by
  decide

/-- Claim C6 amended: on the degenerate measurement `y = 0` the resolver
still terminates normally with a result (no error, no division by zero),
but the result may be success as well as failure. -/
theorem degenerate_y_no_crash (N a : ℕ) (hN : 2 ≤ N) (ha1 : 1 < a)
    (ha2 : a < N) (hco : Nat.gcd a N = 1) :
    ∃ res, resolveFactors N a 0 = some res :=
  resolveFactors_total N a 0 hN

/-- Witness for claim C6 (amended) at `N = 15`, `a = 7`. -/
theorem degenerate_y_no_crash_witness :
    ∃ res, resolveFactors 15 7 0 = some res :=
  degenerate_y_no_crash 15 7 (by decide) (by decide) (by decide) (by decide)

/-- Claim C7: the pre-correction candidate pair is
`(gcd (x + 1) N, gcd (x - 1) N)` with `x = a ^ (r' / 2) % N` computed by
modular exponentiation, where `r' = r` for even `r` and `r' = 2 r` for odd
`r` (an odd candidate is doubled, never rejected). -/
theorem candidate_pair_formula (N a r : ℕ) (hN : 2 ≤ N) :
    candidatePair N a (adjustParity r) =
      some (Int.gcd (((a ^ ((if Even r then r else 2 * r) / 2) % N : ℕ) : ℤ) + 1) N,
            Int.gcd (((a ^ ((if Even r then r else 2 * r) / 2) % N : ℕ) : ℤ) - 1) N) := by
  have hadj : adjustParity r = if Even r then r else 2 * r := by
    unfold adjustParity
    by_cases h : Even r
    · simp [Nat.even_iff.mp h, h]
    · have h2 : r % 2 ≠ 0 := by
        rw [Nat.even_iff] at h
        omega
      simp [h2, h, Nat.mul_comm]
  rw [candidatePair_eq N a (adjustParity r) (by omega), hadj,
    Nat.shiftRight_eq_div_pow]

/-- Witness for claim C7 at `N = 15`, `a = 7`, `r = 3`. -/
theorem candidate_pair_formula_witness :
    candidatePair 15 7 (adjustParity 3) =
      some (Int.gcd (((7 ^ ((if Even 3 then 3 else 2 * 3) / 2) % 15 : ℕ) : ℤ) + 1) 15,
            Int.gcd (((7 ^ ((if Even 3 then 3 else 2 * 3) / 2) % 15 : ℕ) : ℤ) - 1) 15) :=
  candidate_pair_formula 15 7 3 (by decide)

/-- Claim C8: the composite-correction pass replaces the pair with
`(f1 * f2, N / (f1 * f2))` exactly when `f1 * f2 ≠ N`, `f1 * f2 > 1`, and
`f1 * f2` evenly divides `N`; in every other case it leaves the pair
unchanged. -/
theorem composite_correction_cases (N f1 f2 : ℕ) :
    (f1 * f2 ≠ N → 1 < f1 * f2 → f1 * f2 ∣ N →
      compositeCorrect N f1 f2 = some (f1 * f2, N / (f1 * f2))) ∧
    (¬ (f1 * f2 ≠ N ∧ 1 < f1 * f2 ∧ f1 * f2 ∣ N) →
      compositeCorrect N f1 f2 = some (f1, f2)) := by
  constructor
  · intro hne hgt hdvd
    unfold compositeCorrect
    rw [if_neg hne, if_pos hgt, pyDivFloor_eq N (f1 * f2) (by omega),
      Option.map_some']
    rw [if_pos]
    rw [Nat.mul_assoc]
    exact Nat.div_mul_cancel hdvd
  · intro hn
    unfold compositeCorrect
    by_cases h1 : f1 * f2 = N
    · rw [if_pos h1]
    · rw [if_neg h1]
      by_cases h2 : 1 < f1 * f2
      · rw [if_pos h2, pyDivFloor_eq N (f1 * f2) (by omega), Option.map_some']
        have hnd : ¬ (f1 * f2 ∣ N) := fun hd => hn ⟨h1, h2, hd⟩
        rw [if_neg]
        intro heq
        have h3 : (f1 * f2) * (N / (f1 * f2)) = N := by
          rw [Nat.mul_comm (f1 * f2) (N / (f1 * f2))]
          rw [Nat.mul_assoc] at heq
          exact heq
        exact hnd ⟨N / (f1 * f2), h3.symm⟩
      · rw [if_neg h2]

/-- Witness for claim C8 at `N = 15`, `f1 = 1`, `f2 = 3` (the pair arising
from `x = 7`): the corrected pair is `(3, 5)`. -/
theorem composite_correction_cases_witness :
    compositeCorrect 15 1 3 = some (1 * 3, 15 / (1 * 3)) :=
  (composite_correction_cases 15 1 3).1 (by decide) (by decide) (by decide)

/-- Counterexample to claim C9: the sampled base can be `a = 0` (from
`u < 1/N`), and then the value reported by the precondition check is
`gcd(0, N) = N` — a trivial factor, not a nontrivial one.  At `N = 21`,
`a = 0` the cell reports factor 21. -/
theorem coprime_bypass_trivial_at_zero :
    Nat.gcd 0 21 = 21 ∧
    shorCell 21 0 0 = some (CellOutput.classicalFactor 21) := by
  decide

/-- Claim C9 amended: for every sampled base `a` with `1 ≤ a < N` and
`gcd(a, N) ≠ 1`, the resolver is bypassed (the cell reports the classical
factor directly) and the reported value `gcd(a, N)` is a nontrivial factor
of `N`.  (For `a = 0` the reported value is the trivial factor `N`.) -/
theorem coprime_bypass_nontrivial (N a y : ℕ) (hN : 2 ≤ N) (ha : 1 ≤ a)
    (haN : a < N) (h : Nat.gcd a N ≠ 1) :
    shorCell N a y = some (CellOutput.classicalFactor (Nat.gcd a N)) ∧
    1 < Nat.gcd a N ∧ Nat.gcd a N < N ∧ Nat.gcd a N ∣ N := by
  refine ⟨by simp [shorCell, h], ?_, ?_, Nat.gcd_dvd_right a N⟩
  · have hpos : 0 < Nat.gcd a N := Nat.gcd_pos_of_pos_right a (by omega)
    omega
  · have hle : Nat.gcd a N ≤ a := Nat.le_of_dvd (by omega) (Nat.gcd_dvd_left a N)
    omega

/-- Witness for claim C9 (amended) at `N = 21`, `a = 3`. -/
theorem coprime_bypass_nontrivial_witness :
    shorCell 21 3 0 = some (CellOutput.classicalFactor (Nat.gcd 3 21)) ∧
    1 < Nat.gcd 3 21 ∧ Nat.gcd 3 21 < 21 ∧ Nat.gcd 3 21 ∣ 21 :=
  coprime_bypass_nontrivial 21 3 0 (by decide) (by decide) (by decide) (by decide)

/-- Counterexample to claim C10: the sampler may draw `u = 0`, and then
`a = int(u * N) = 0`, which lies below the claimed lower bound 2. -/
theorem sample_base_can_be_zero :
    sampleBase 21 0 = 0 ∧ (0 : ℤ) < 2 := by
  constructor
  · show ⌊(0 : ℚ) * (21 : ℚ)⌋ = 0
    norm_num
  · decide

/-- Claim C10 amended: for every `u ∈ [0, 1)` the sampled base
`a = int(u * N)` is an integer in `[0, N - 1]` (not `[2, N - 1]`: 0 and 1
are possible). -/
theorem sample_base_range (N : ℕ) (u : ℚ) (hN : 2 ≤ N) (h0 : 0 ≤ u)
    (h1 : u < 1) :
    0 ≤ sampleBase N u ∧ sampleBase N u ≤ (N : ℤ) - 1 := by
  have hN0 : (0 : ℚ) < (N : ℚ) := by
    have hN' : (0 : ℕ) < N := by omega
    exact_mod_cast hN'
  constructor
  · unfold sampleBase
    rw [Int.le_floor]
    push_cast
    exact mul_nonneg h0 (le_of_lt hN0)
  · unfold sampleBase
    have hlt : ⌊u * (N : ℚ)⌋ < (N : ℤ) := by
      rw [Int.floor_lt]
      push_cast
      calc u * (N : ℚ) < 1 * (N : ℚ) := mul_lt_mul_of_pos_right h1 hN0
        _ = (N : ℚ) := one_mul _
    omega

/-- Witness for claim C10 (amended) at `N = 21`, `u = 1/2`. -/
theorem sample_base_range_witness :
    0 ≤ sampleBase 21 (mkRat 1 2) ∧ sampleBase 21 (mkRat 1 2) ≤ (21 : ℤ) - 1 :=
  sample_base_range 21 (mkRat 1 2) (by decide) (by decide) (by decide)

end Shor

